import Mathlib

/-!
A shallow embedding of the task-manager backend (Convex endpoint, db and
helper layers) together with proofs about its authorization, validation,
status-transition and cascade-deletion behaviour.

Layers embedded:
* `helpers/validation.ts` and `helpers/constants.ts` — pure predicates and
  constants, translated directly.
* `db/messages.ts` — present in the sources, translated directly over an
  explicit store state.
* `db/tasks.ts` and `db/threads.ts` — absent from the sources (only their
  callers are); modelled from the design document's description of the
  entity-store layer (create/getById/listByOwner/update/delete with
  partial-field patch semantics).
* `endpoints/tasks.ts` and the assistant endpoint file — translated
  directly, with authentication, the rate limiter and the AI agent as
  environment parameters, and the calls made to the rate limiter and the
  agent recorded in the result so that consumption is observable.

Machine integers (`Date.now()` epoch milliseconds) are modelled as `Int`;
JavaScript string lengths as code-point counts (all inputs of interest are
ASCII, where the two coincide).
-/

namespace TodoApp

/-! ## Helper layer: validation (`helpers/validation.ts`) -/

/-- Whitespace for the purposes of the sanitizer (JS `\s` on the ASCII range:
space, tab, newline, carriage return, vertical tab, form feed). -/
def isWsChar (c : Char) : Bool :=
  c == ' ' || c == '\t' || c == '\n' || c == '\r' || c == '\x0b' || c == '\x0c'

/-- `String.prototype.trim`: drop leading and trailing whitespace. -/
def trimChars (l : List Char) : List Char :=
  ((l.dropWhile isWsChar).reverse.dropWhile isWsChar).reverse

/-- `.replace(-ws-runs-, " ")`: collapse each maximal whitespace run to one
space (the run's last character emits the space). -/
def collapseWs : List Char → List Char
  | [] => []
  | [c] => if isWsChar c then [' '] else [c]
  | c :: d :: rest =>
    if isWsChar c && isWsChar d then collapseWs (d :: rest)
    else (if isWsChar c then ' ' else c) :: collapseWs (d :: rest)

/-- `sanitizeInput(input)`: `input.trim().replace(-ws-runs-, " ")`. -/
def sanitizeInput (s : String) : String :=
  ⟨collapseWs (trimChars s.data)⟩

/-- `isValidTaskTitle`: length in 1..200. -/
def isValidTaskTitle (title : String) : Bool :=
  title.length > 0 && title.length ≤ 200

/-- `isValidTaskDescription`: length at most 5000. -/
def isValidTaskDescription (description : String) : Bool :=
  description.length ≤ 5000

/-- `isValidDueDate`: within 24 hours before `now` and five (365-day) years
after it.  `Date.now()` is passed explicitly. -/
def isValidDueDate (now dueDate : Int) : Bool :=
  dueDate ≥ now - 24 * 60 * 60 * 1000 &&
    dueDate ≤ now + 5 * 365 * 24 * 60 * 60 * 1000

/-- `isValidThreadTitle`: length in 1..100. -/
def isValidThreadTitle (title : String) : Bool :=
  title.length > 0 && title.length ≤ 100

/-- `isValidMessageContent`: length in 1..10000. -/
def isValidMessageContent (content : String) : Bool :=
  content.length > 0 && content.length ≤ 10000

/-! ## Helper layer: constants (`helpers/constants.ts`) -/

def MAX_TASKS_PER_USER : Nat := 1000
def MAX_TITLE_LENGTH : Nat := 200
def MAX_DESCRIPTION_LENGTH : Nat := 5000
def MAX_THREADS_PER_USER : Nat := 50
def MAX_THREAD_TITLE_LENGTH : Nat := 100
def MAX_MESSAGE_LENGTH : Nat := 10000
def MAX_MESSAGES_PER_THREAD : Nat := 1000

/-- Task status values. -/
inductive TaskStatus where
  | pending
  | in_progress
  | completed
deriving Repr, DecidableEq

/-- Task priority values. -/
inductive Priority where
  | low
  | medium
  | high
deriving Repr, DecidableEq

/-- Thread status values. -/
inductive ThreadStatus where
  | active
  | archived
deriving Repr, DecidableEq

/-- Message roles. -/
inductive Role where
  | user
  | assistant
deriving Repr, DecidableEq

/-- `VALID_STATUS_TRANSITIONS` from `helpers/constants.ts` (the allowed
target statuses for each current status). -/
def VALID_STATUS_TRANSITIONS : TaskStatus → List TaskStatus
  | .pending => [.pending, .in_progress, .completed]
  | .in_progress => [.in_progress, .completed, .pending]
  | .completed => [.completed, .pending]

/-! ## Data model (`schema.ts`, as documented in the README schema tables) -/

/-- A stored task record. -/
structure Task where
  id : Nat
  userId : String
  title : String
  description : Option String
  status : TaskStatus
  priority : Option Priority
  dueDate : Option Int
  completedAt : Option Int
  createdAt : Int
  updatedAt : Int
deriving Repr, DecidableEq

/-- A stored conversation thread record. -/
structure Thread where
  id : Nat
  userId : String
  title : Option String
  status : ThreadStatus
  createdAt : Int
  updatedAt : Int
deriving Repr, DecidableEq

/-- A stored message record. -/
structure Message where
  id : Nat
  threadId : Nat
  userId : String
  role : Role
  content : String
  createdAt : Int
deriving Repr, DecidableEq

/-- The document store: the three tables, in insertion (hence creation)
order, plus the next fresh document id. -/
structure DB where
  tasks : List Task
  threads : List Thread
  messages : List Message
  nextId : Nat
deriving Repr, DecidableEq

/-! ## Error taxonomy

Each constructor corresponds to one family of `throw new Error(...)` sites
in the endpoint layer and carries the message text the code builds
(for `rateLimited`, the whole-seconds retry-after value embedded in the
message). -/

inductive Err where
  | unauthenticated
  | rateLimited (retryAfterSeconds : Nat)
  | invalidInput (msg : String)
  | notFound (msg : String)
  | forbidden (msg : String)
  | quotaExceeded (msg : String)
deriving Repr, DecidableEq

/-- Outcome of one `rateLimiter.limit` call (`{ok, retryAfter}` with
`retryAfter` in milliseconds). -/
structure RateLimitResult where
  ok : Bool
  retryAfter : Nat
deriving Repr, DecidableEq

/-- The ambient environment of one request: the authenticated user (if
any), the external rate limiter (bucket name and key to outcome), the
clock, the external AI agent and the locale date formatter. -/
structure Env where
  auth : Option String
  rl : String → String → RateLimitResult
  now : Int
  agent : List (Role × String) → String
  fmtDate : Int → String

/-- `Math.ceil(retryAfter / 1000)` on a non-negative millisecond count. -/
def ceilSeconds (ms : Nat) : Nat := (ms + 999) / 1000

/-- Result of one endpoint invocation: the returned value or the thrown
error, the resulting store, and the `rateLimiter.limit` calls made
(bucket name and key, in order). -/
structure Out (α : Type) where
  res : Except Err α
  db : DB
  rlCalls : List (String × String)

/-! ## Entity store: tasks

`db/tasks.ts` is absent from the sources (only its callers are).  The
definitions below are modelled from the design document's entity-store
contract: `create(fields) → id`, `getById`, `listByOwner`,
`update(id, partialFields) → updated entity` applying only the supplied
fields and stamping the update timestamp, `delete(id)`, and the
complete-marking helper that stamps the completion time on the transition
into `completed`. -/

/-- Fields the task-create endpoint passes to the store. -/
structure CreateTaskFields where
  userId : String
  title : String
  description : Option String
  status : TaskStatus
  priority : Option Priority
  dueDate : Option Int
deriving Repr, DecidableEq

/-- Modelled from the spec: `db/tasks.ts` `createTask` — insert a new task
document with the supplied fields and creation/update timestamps; no
completion timestamp is supplied at creation. -/
def createTask (db : DB) (now : Int) (f : CreateTaskFields) : DB × Nat :=
  let t : Task :=
    { id := db.nextId, userId := f.userId, title := f.title,
      description := f.description, status := f.status,
      priority := f.priority, dueDate := f.dueDate, completedAt := none,
      createdAt := now, updatedAt := now }
  ({ db with tasks := db.tasks ++ [t], nextId := db.nextId + 1 }, db.nextId)

/-- Modelled from the spec: `db/tasks.ts` `getTaskById`. -/
def getTaskById (db : DB) (id : Nat) : Option Task :=
  db.tasks.find? (fun t => t.id == id)

/-- Modelled from the spec: `db/tasks.ts` `getTasksByUser` (owner-scoped
listing). -/
def getTasksByUser (db : DB) (userId : String) : List Task :=
  db.tasks.filter (fun t => t.userId == userId)

/-- A partial-field patch for a task, mirroring the `updates` object the
update endpoint builds: a field can be absent (left unchanged), and
`completedAt` can additionally be present-but-undefined, which the store's
patch semantics turns into clearing the field. -/
structure TaskPatch where
  title : Option String := none
  description : Option String := none
  status : Option TaskStatus := none
  priority : Option Priority := none
  dueDate : Option Int := none
  completedAt : Option (Option Int) := none
deriving Repr, DecidableEq

/-- Apply a patch to one task, stamping `updatedAt`. -/
def applyTaskPatch (now : Int) (p : TaskPatch) (t : Task) : Task :=
  { t with
    title := p.title.getD t.title
    description := match p.description with
      | none => t.description
      | some d => some d
    status := p.status.getD t.status
    priority := match p.priority with
      | none => t.priority
      | some pr => some pr
    dueDate := match p.dueDate with
      | none => t.dueDate
      | some d => some d
    completedAt := match p.completedAt with
      | none => t.completedAt
      | some v => v
    updatedAt := now }

/-- Modelled from the spec: `db/tasks.ts` `updateTask` — patch the stored
task with the supplied partial fields and return the updated entity. -/
def updateTask (db : DB) (now : Int) (id : Nat) (p : TaskPatch) :
    DB × Option Task :=
  let tasks := db.tasks.map (fun t => if t.id == id then applyTaskPatch now p t else t)
  ({ db with tasks := tasks }, tasks.find? (fun t => t.id == id))

/-- Modelled from the spec: `db/tasks.ts` `markTaskCompleted` — set status
to `completed`; per the status-transition side effect, the completion time
is stamped when the previous stored status was not `completed` and kept
otherwise. -/
def markTaskCompleted (db : DB) (now : Int) (id : Nat) : DB × Option Task :=
  let tasks := db.tasks.map (fun t =>
    if t.id == id then
      { t with
        status := .completed
        completedAt := if t.status ≠ TaskStatus.completed then some now else t.completedAt
        updatedAt := now }
    else t)
  ({ db with tasks := tasks }, tasks.find? (fun t => t.id == id))

/-- Modelled from the spec: `db/tasks.ts` `deleteTask`. -/
def deleteTask (db : DB) (id : Nat) : DB :=
  { db with tasks := db.tasks.filter (fun t => !(t.id == id)) }

/-! ## Entity store: threads

`db/threads.ts` is likewise absent from the sources; modelled from the
same entity-store contract. -/

/-- Modelled from the spec: `db/threads.ts` `createThread`. -/
def createThreadDb (db : DB) (now : Int) (userId : String)
    (title : Option String) (status : ThreadStatus) : DB × Nat :=
  let th : Thread :=
    { id := db.nextId, userId := userId, title := title, status := status,
      createdAt := now, updatedAt := now }
  ({ db with threads := db.threads ++ [th], nextId := db.nextId + 1 }, db.nextId)

/-- Modelled from the spec: `db/threads.ts` `getThreadById`. -/
def getThreadById (db : DB) (id : Nat) : Option Thread :=
  db.threads.find? (fun th => th.id == id)

/-- Modelled from the spec: `db/threads.ts` `getThreadsByUser`. -/
def getThreadsByUser (db : DB) (userId : String) : List Thread :=
  db.threads.filter (fun th => th.userId == userId)

/-- Partial-field patch for a thread (title and status only, mirroring the
`updates` object the thread-update endpoint builds). -/
structure ThreadPatch where
  title : Option String := none
  status : Option ThreadStatus := none
deriving Repr, DecidableEq

/-- Modelled from the spec: `db/threads.ts` `updateThread` — patch the
stored thread and return the updated entity. -/
def updateThreadDb (db : DB) (now : Int) (id : Nat) (p : ThreadPatch) :
    DB × Option Thread :=
  let threads := db.threads.map (fun th =>
    if th.id == id then
      { th with
        title := match p.title with
          | none => th.title
          | some s => some s
        status := p.status.getD th.status
        updatedAt := now }
    else th)
  ({ db with threads := threads }, threads.find? (fun th => th.id == id))

/-- Modelled from the spec: `db/threads.ts` `deleteThread`. -/
def deleteThreadDb (db : DB) (id : Nat) : DB :=
  { db with threads := db.threads.filter (fun th => !(th.id == id)) }

/-! ## Entity store: messages (`db/messages.ts`, present in the sources) -/

/-- `createMessage`: insert a message with a creation timestamp. -/
def createMessage (db : DB) (now : Int) (threadId : Nat) (userId : String)
    (role : Role) (content : String) : DB × Nat :=
  let m : Message :=
    { id := db.nextId, threadId := threadId, userId := userId, role := role,
      content := content, createdAt := now }
  ({ db with messages := db.messages ++ [m], nextId := db.nextId + 1 }, db.nextId)

/-- `getMessagesByThread`: the thread's messages in chronological order
(the store's insertion order stands in for the `by_thread` index asc
order). -/
def getMessagesByThread (db : DB) (threadId : Nat) : List Message :=
  db.messages.filter (fun m => m.threadId == threadId)

/-- `getRecentMessagesByThread`: take the newest `limit` messages
(descending order) and reverse back to chronological order. -/
def getRecentMessagesByThread (db : DB) (threadId : Nat) (limit : Nat) :
    List Message :=
  (((getMessagesByThread db threadId).reverse).take limit).reverse

/-- `countMessagesInThread`. -/
def countMessagesInThread (db : DB) (threadId : Nat) : Nat :=
  (getMessagesByThread db threadId).length

/-- `deleteMessagesByThread`: collect the thread's messages, delete each,
and return how many were deleted. -/
def deleteMessagesByThread (db : DB) (threadId : Nat) : DB × Nat :=
  let ms := db.messages.filter (fun m => m.threadId == threadId)
  ({ db with messages := db.messages.filter (fun m => !(m.threadId == threadId)) },
    ms.length)

/-! ## Endpoint layer: tasks (`endpoints/tasks.ts`) -/

namespace TaskEndpoint

/-- Arguments of the task-create mutation (no status and no completedAt
argument exists). -/
structure CreateArgs where
  title : String
  description : Option String := none
  priority : Option Priority := none
  dueDate : Option Int := none
deriving Repr, DecidableEq

/-- The `create` mutation: authentication, rate limiting on the
`createTask` bucket, sanitization and validation, per-user quota, then the
store insert with status `pending`.  JS truthiness: an empty-string
description and a zero due date are skipped by their validation guards. -/
def create (env : Env) (db : DB) (args : CreateArgs) : Out Nat :=
  match env.auth with
  | none => ⟨.error .unauthenticated, db, []⟩
  | some uid =>
    let rlRes := env.rl "createTask" uid
    let calls := [("createTask", uid)]
    if !rlRes.ok then
      ⟨.error (.rateLimited (ceilSeconds rlRes.retryAfter)), db, calls⟩
    else
      let sanitizedTitle := sanitizeInput args.title
      if !isValidTaskTitle sanitizedTitle then
        ⟨.error (.invalidInput "Task title must be between 1 and 200 characters"), db, calls⟩
      else if (match args.description with
          | some d => d != "" && !isValidTaskDescription (sanitizeInput d)
          | none => false) then
        ⟨.error (.invalidInput "Task description must be less than 5000 characters"), db, calls⟩
      else if (match args.dueDate with
          | some d => d != 0 && !isValidDueDate env.now d
          | none => false) then
        ⟨.error (.invalidInput "Invalid due date"), db, calls⟩
      else if (getTasksByUser db uid).length ≥ MAX_TASKS_PER_USER then
        ⟨.error (.quotaExceeded ("Maximum " ++ toString MAX_TASKS_PER_USER ++ " tasks per user reached")), db, calls⟩
      else
        let desc : Option String := match args.description with
          | some d => if d == "" then none else some (sanitizeInput d)
          | none => none
        let created := createTask db env.now
          { userId := uid, title := sanitizedTitle, description := desc,
            status := .pending, priority := args.priority,
            dueDate := args.dueDate }
        ⟨.ok created.2, created.1, calls⟩

/-- Arguments of the task-update mutation (all fields optional; no
previous-status argument exists — the previous status is read from the
store). -/
structure UpdateArgs where
  id : Nat
  title : Option String := none
  description : Option String := none
  status : Option TaskStatus := none
  priority : Option Priority := none
  dueDate : Option Int := none
deriving Repr, DecidableEq

/-- The `updates` object the update handler builds once validation has
passed: sanitized supplied fields, plus the completedAt entry decided from
the requested status against the previously stored status (`task` is the
record read from the store just before the update). -/
def updatePatch (now : Int) (args : UpdateArgs) (task : Task) : TaskPatch :=
  { title := args.title.map sanitizeInput
    description := args.description.map sanitizeInput
    status := args.status
    priority := args.priority
    dueDate := args.dueDate
    completedAt :=
      match args.status with
      | none => none
      | some s =>
        if s == .completed && task.status != .completed then
          some (some now)
        else if s != .completed && task.status == .completed then
          some none
        else none }

/-- The `update` mutation, in source order: authentication, rate limiting
on the `updateTask` bucket, load + ownership check, field validation, then
the store patch.  The completedAt patch entry is decided from the target
status against the previously stored status; no status-transition table is
consulted. -/
def update (env : Env) (db : DB) (args : UpdateArgs) : Out (Option Task) :=
  match env.auth with
  | none => ⟨.error .unauthenticated, db, []⟩
  | some uid =>
    let rlRes := env.rl "updateTask" uid
    let calls := [("updateTask", uid)]
    if !rlRes.ok then
      ⟨.error (.rateLimited (ceilSeconds rlRes.retryAfter)), db, calls⟩
    else
      match getTaskById db args.id with
      | none => ⟨.error (.notFound "Task not found"), db, calls⟩
      | some task =>
        if task.userId != uid then
          ⟨.error (.forbidden "Not authorized to update this task"), db, calls⟩
        else if (match args.title with
            | some s => !isValidTaskTitle (sanitizeInput s)
            | none => false) then
          ⟨.error (.invalidInput "Task title must be between 1 and 200 characters"), db, calls⟩
        else if (match args.description with
            | some d => !isValidTaskDescription (sanitizeInput d)
            | none => false) then
          ⟨.error (.invalidInput "Task description must be less than 5000 characters"), db, calls⟩
        else if (match args.dueDate with
            | some d => !isValidDueDate env.now d
            | none => false) then
          ⟨.error (.invalidInput "Invalid due date"), db, calls⟩
        else
          let updated := updateTask db env.now args.id (updatePatch env.now args task)
          ⟨.ok updated.2, updated.1, calls⟩

/-- The `complete` mutation: authentication, rate limiting on the
`updateTask` bucket, load + ownership check, then mark completed. -/
def complete (env : Env) (db : DB) (id : Nat) : Out (Option Task) :=
  match env.auth with
  | none => ⟨.error .unauthenticated, db, []⟩
  | some uid =>
    let rlRes := env.rl "updateTask" uid
    let calls := [("updateTask", uid)]
    if !rlRes.ok then
      ⟨.error (.rateLimited (ceilSeconds rlRes.retryAfter)), db, calls⟩
    else
      match getTaskById db id with
      | none => ⟨.error (.notFound "Task not found"), db, calls⟩
      | some task =>
        if task.userId != uid then
          ⟨.error (.forbidden "Not authorized to update this task"), db, calls⟩
        else
          let marked := markTaskCompleted db env.now id
          ⟨.ok marked.2, marked.1, calls⟩

/-- The `remove` mutation: authentication, rate limiting on the
`deleteTask` bucket, load + ownership check, then delete. -/
def remove (env : Env) (db : DB) (id : Nat) : Out Unit :=
  match env.auth with
  | none => ⟨.error .unauthenticated, db, []⟩
  | some uid =>
    let rlRes := env.rl "deleteTask" uid
    let calls := [("deleteTask", uid)]
    if !rlRes.ok then
      ⟨.error (.rateLimited (ceilSeconds rlRes.retryAfter)), db, calls⟩
    else
      match getTaskById db id with
      | none => ⟨.error (.notFound "Task not found"), db, calls⟩
      | some task =>
        if task.userId != uid then
          ⟨.error (.forbidden "Not authorized to delete this task"), db, calls⟩
        else
          ⟨.ok (), deleteTask db id, calls⟩

/-- The `get` query: authentication, load, ownership check.  Queries make
no rate-limiter calls. -/
def get (env : Env) (db : DB) (id : Nat) : Out Task :=
  match env.auth with
  | none => ⟨.error .unauthenticated, db, []⟩
  | some uid =>
    match getTaskById db id with
    | none => ⟨.error (.notFound "Task not found"), db, []⟩
    | some task =>
      if task.userId != uid then
        ⟨.error (.forbidden "Not authorized to view this task"), db, []⟩
      else ⟨.ok task, db, []⟩

end TaskEndpoint

/-! ## Endpoint layer: assistant (threads + messages) -/

namespace Assistant

/-- The `createThread` mutation: authentication, rate limiting on the
`createThread` bucket, per-user thread quota, then title validation (only
for a truthy title) and the store insert with status `active`. -/
def createThread (env : Env) (db : DB) (title : Option String) : Out Nat :=
  match env.auth with
  | none => ⟨.error .unauthenticated, db, []⟩
  | some uid =>
    let rlRes := env.rl "createThread" uid
    let calls := [("createThread", uid)]
    if !rlRes.ok then
      ⟨.error (.rateLimited (ceilSeconds rlRes.retryAfter)), db, calls⟩
    else if (getThreadsByUser db uid).length ≥ MAX_THREADS_PER_USER then
      ⟨.error (.quotaExceeded ("Maximum " ++ toString MAX_THREADS_PER_USER ++ " threads per user reached")), db, calls⟩
    else if (match title with
        | some s => s != "" && !isValidThreadTitle (sanitizeInput s)
        | none => false) then
      ⟨.error (.invalidInput "Thread title must be between 1 and 100 characters"), db, calls⟩
    else
      let sTitle : Option String := match title with
        | some s => if s == "" then none else some (sanitizeInput s)
        | none => none
      let created := createThreadDb db env.now uid sTitle .active
      ⟨.ok created.2, created.1, calls⟩

/-- The `getThread` query: authentication, load, ownership check, then the
thread together with its messages. -/
def getThread (env : Env) (db : DB) (threadId : Nat) :
    Out (Thread × List Message) :=
  match env.auth with
  | none => ⟨.error .unauthenticated, db, []⟩
  | some uid =>
    match getThreadById db threadId with
    | none => ⟨.error (.notFound "Thread not found"), db, []⟩
    | some thread =>
      if thread.userId != uid then
        ⟨.error (.forbidden "Not authorized to view this thread"), db, []⟩
      else ⟨.ok (thread, getMessagesByThread db threadId), db, []⟩

/-- Arguments of the thread-update mutation. -/
structure UpdateThreadArgs where
  threadId : Nat
  title : Option String := none
  status : Option ThreadStatus := none
deriving Repr, DecidableEq

/-- The `updateThread` mutation: authentication, load + ownership check,
title validation, then the store patch.  The source makes no
`rateLimiter.limit` call in this handler. -/
def updateThread (env : Env) (db : DB) (args : UpdateThreadArgs) :
    Out (Option Thread) :=
  match env.auth with
  | none => ⟨.error .unauthenticated, db, []⟩
  | some uid =>
    match getThreadById db args.threadId with
    | none => ⟨.error (.notFound "Thread not found"), db, []⟩
    | some thread =>
      if thread.userId != uid then
        ⟨.error (.forbidden "Not authorized to update this thread"), db, []⟩
      else if (match args.title with
          | some s => !isValidThreadTitle (sanitizeInput s)
          | none => false) then
        ⟨.error (.invalidInput "Thread title must be between 1 and 100 characters"), db, []⟩
      else
        let patch : ThreadPatch :=
          { title := args.title.map sanitizeInput, status := args.status }
        let updated := updateThreadDb db env.now args.threadId patch
        ⟨.ok updated.2, updated.1, []⟩

/-- The `deleteThread` mutation: authentication, load + ownership check,
then delete all of the thread's messages and finally the thread itself.
The source makes no `rateLimiter.limit` call in this handler. -/
def deleteThread (env : Env) (db : DB) (threadId : Nat) : Out Unit :=
  match env.auth with
  | none => ⟨.error .unauthenticated, db, []⟩
  | some uid =>
    match getThreadById db threadId with
    | none => ⟨.error (.notFound "Thread not found"), db, []⟩
    | some thread =>
      if thread.userId != uid then
        ⟨.error (.forbidden "Not authorized to delete this thread"), db, []⟩
      else
        let afterMessages := (deleteMessagesByThread db threadId).1
        ⟨.ok (), deleteThreadDb afterMessages threadId, []⟩

/-- Status words as they appear in the task-context bullet list. -/
def statusStr : TaskStatus → String
  | .pending => "pending"
  | .in_progress => "in_progress"
  | .completed => "completed"

/-- Priority words as they appear in the task-context bullet list. -/
def priorityStr : Priority → String
  | .low => "low"
  | .medium => "medium"
  | .high => "high"

/-- One bullet line of the task-context summary (a zero due date is falsy
in the source template and is omitted). -/
def taskLine (env : Env) (t : Task) : String :=
  "- [" ++ statusStr t.status ++ "] " ++ t.title ++
    (match t.priority with
      | some p => " (" ++ priorityStr p ++ " priority)"
      | none => "") ++
    (match t.dueDate with
      | some d => if d == 0 then "" else " (due: " ++ env.fmtDate d ++ ")"
      | none => "")

/-- The task-context summary appended to the user's prompt. -/
def taskContextFor (env : Env) (tasks : List Task) : String :=
  if tasks.length > 0 then
    "\n\nCurrent user tasks:\n" ++
      String.intercalate "\n" (tasks.map (taskLine env))
  else "\n\nThe user has no tasks yet."

/-- Result of the `sendMessage` action: value or error, resulting store,
rate-limiter calls, and how many times the external AI agent was
invoked. -/
structure SendOut where
  res : Except Err (Nat × Nat × String)
  db : DB
  rlCalls : List (String × String)
  agentCalls : Nat

/-- The `sendMessage` action, steps in source order: authentication, rate
limiting on the `sendMessage` bucket, content sanitization + validation,
thread load + ownership, per-thread message quota, persist the user
message, build the task context, load the 10 most recent prior messages,
invoke the agent, persist the assistant reply. -/
def sendMessage (env : Env) (db : DB) (threadId : Nat) (content : String) :
    SendOut :=
  match env.auth with
  | none => ⟨.error .unauthenticated, db, [], 0⟩
  | some uid =>
    let rlRes := env.rl "sendMessage" uid
    let calls := [("sendMessage", uid)]
    if !rlRes.ok then
      ⟨.error (.rateLimited (ceilSeconds rlRes.retryAfter)), db, calls, 0⟩
    else
      let sanitizedContent := sanitizeInput content
      if !isValidMessageContent sanitizedContent then
        ⟨.error (.invalidInput "Message content must be between 1 and 10000 characters"), db, calls, 0⟩
      else
        match getThreadById db threadId with
        | none => ⟨.error (.notFound "Thread not found"), db, calls, 0⟩
        | some thread =>
          if thread.userId != uid then
            ⟨.error (.forbidden "Not authorized to send messages in this thread"), db, calls, 0⟩
          else if countMessagesInThread db threadId ≥ MAX_MESSAGES_PER_THREAD then
            ⟨.error (.quotaExceeded ("Maximum " ++ toString MAX_MESSAGES_PER_THREAD ++ " messages per thread reached")), db, calls, 0⟩
          else
            let inserted := createMessage db env.now threadId uid .user sanitizedContent
            let db2 := inserted.1
            let userMessageId := inserted.2
            let tasks := getTasksByUser db2 uid
            let taskContext := taskContextFor env tasks
            let previousMessages := getRecentMessagesByThread db2 threadId 10
            let conversationHistory :=
              (previousMessages.filter (fun m => !(m.id == userMessageId))).map
                (fun m => (m.role, m.content))
            let aiText := env.agent
              (conversationHistory ++ [(Role.user, sanitizedContent ++ taskContext)])
            let inserted2 := createMessage db2 env.now threadId uid .assistant aiText
            ⟨.ok (userMessageId, inserted2.2, aiText), inserted2.1, calls, 1⟩

end Assistant

/-! ## Derived predicates -/

/-- The completedAt-iff-completed invariant for one task. -/
def completedAtConsistent (t : Task) : Bool :=
  t.completedAt.isSome == (t.status == TaskStatus.completed)

/-- The completedAt-iff-completed invariant over the whole store. -/
def tasksConsistent (db : DB) : Bool :=
  db.tasks.all completedAtConsistent

/-- Whether an endpoint outcome is the RateLimited error. -/
def isRateLimitedErr {α : Type} : Except Err α → Bool
  | .error (.rateLimited _) => true
  | _ => false

/-! ## Concrete fixtures used in witnesses and counterexamples -/

/-- A rate limiter with every bucket available. -/
def rlOk : String → String → RateLimitResult := fun _ _ => ⟨true, 0⟩

/-- A rate limiter with every bucket exhausted (60 s retry-after). -/
def rlDenied : String → String → RateLimitResult := fun _ _ => ⟨false, 60000⟩

/-- A fixed external agent reply. -/
def agentFixed : List (Role × String) → String := fun _ => "Happy to help."

/-- A fixed locale date rendering. -/
def fmtFixed : Int → String := fun _ => "11/15/2023"

/-- A fixed request time (epoch milliseconds). -/
def NOW : Int := 1700000000000

def envAlice : Env :=
  { auth := some "alice", rl := rlOk, now := NOW, agent := agentFixed,
    fmtDate := fmtFixed }

def envBob : Env := { envAlice with auth := some "bob" }

def envBobDenied : Env := { envBob with rl := rlDenied }

/-- A completed task owned by alice. -/
def taskAlice : Task :=
  { id := 0, userId := "alice", title := "Write report", description := none,
    status := .completed, priority := none, dueDate := none,
    completedAt := some (NOW - 1000), createdAt := NOW - 5000,
    updatedAt := NOW - 1000 }

def dbAlice : DB :=
  { tasks := [taskAlice], threads := [], messages := [], nextId := 1 }

/-- A thread owned by bob, with one message. -/
def threadBob : Thread :=
  { id := 7, userId := "bob", title := some "Plans", status := .active,
    createdAt := NOW - 5000, updatedAt := NOW - 5000 }

def msgBob : Message :=
  { id := 8, threadId := 7, userId := "bob", role := .user, content := "hi",
    createdAt := NOW - 4000 }

def dbBob : DB :=
  { tasks := [], threads := [threadBob], messages := [msgBob], nextId := 9 }

def dbEmpty : DB := { tasks := [], threads := [], messages := [], nextId := 0 }

/-- A thread of alice already holding the per-thread maximum of
messages. -/
def fullThread : Thread :=
  { id := 3, userId := "alice", title := none, status := .active,
    createdAt := 0, updatedAt := 0 }

def fullThreadMessage : Message :=
  { id := 100, threadId := 3, userId := "alice", role := .user,
    content := "x", createdAt := 0 }

def dbFullThread : DB :=
  { tasks := [], threads := [fullThread],
    messages := List.replicate 1000 fullThreadMessage, nextId := 101 }

/-- A raw title of length 201 whose last character is a space. -/
def title201 : String := String.mk (List.replicate 200 'a' ++ [' '])

def taskAliceReopened : Task :=
  { taskAlice with status := .in_progress, completedAt := none, updatedAt := NOW }

def envCarol : Env := { envAlice with auth := some "carol" }

/-- alice's task and bob's thread in one store. -/
def dbMixed : DB :=
  { tasks := [taskAlice], threads := [threadBob], messages := [msgBob],
    nextId := 9 }

/-- bob's thread after archiving at `NOW`. -/
def threadBobArchived : Thread :=
  { threadBob with status := .archived, updatedAt := NOW }

/-! ## C1: the status-transition table is not enforced -/

/-- C1: the claim states that a task update whose requested status is not
in the transition table's allowed set for the stored status is rejected
with the task unchanged, and in particular completed → in_progress fails.
Evaluating the embedded update endpoint on a stored completed task and a
requested status of in_progress: in_progress is not in the table's allowed
set for completed, yet the update succeeds and the stored task's status
becomes in_progress (with the completion timestamp cleared) — the handler
never consults `VALID_STATUS_TRANSITIONS`. -/
theorem C1_completed_to_in_progress_accepted :
    (VALID_STATUS_TRANSITIONS .completed).contains .in_progress = false ∧
    (TaskEndpoint.update envAlice dbAlice
        { id := 0, status := some .in_progress }).res
      = .ok (some taskAliceReopened) ∧
    getTaskById (TaskEndpoint.update envAlice dbAlice
        { id := 0, status := some .in_progress }).db 0
      = some taskAliceReopened ∧
    taskAliceReopened.status = .in_progress := by
  exact ⟨by decide, by rfl, by rfl, by rfl⟩

/-! ## C2: completedAt is set iff status is completed -/

theorem completedAtConsistent_applyPatch (now : Int)
    (args : TaskEndpoint.UpdateArgs) (task : Task)
    (h : completedAtConsistent task = true) :
    completedAtConsistent
      (applyTaskPatch now (TaskEndpoint.updatePatch now args task) task)
      = true := by
  unfold completedAtConsistent at h ⊢
  unfold applyTaskPatch TaskEndpoint.updatePatch
  cases hs : args.status with
  | none => simpa using h
  | some s =>
    cases s <;> cases htc : task.status <;> simp_all

theorem tasksConsistent_mem (db : DB) (t : Task)
    (hdb : tasksConsistent db = true) (ht : t ∈ db.tasks) :
    completedAtConsistent t = true := by
  unfold tasksConsistent at hdb
  exact List.all_eq_true.mp hdb t ht

theorem tasksConsistent_update (env : Env) (db : DB)
    (args : TaskEndpoint.UpdateArgs)
    (hids : (db.tasks.map Task.id).Nodup)
    (hdb : tasksConsistent db = true) :
    tasksConsistent (TaskEndpoint.update env db args).db = true := by
  unfold TaskEndpoint.update
  cases env.auth with
  | none => exact hdb
  | some uid =>
    dsimp only
    split
    · exact hdb
    split
    · exact hdb
    next task heq =>
      split
      · exact hdb
      split
      · exact hdb
      split
      · exact hdb
      split
      · exact hdb
      have heqf : db.tasks.find? (fun t => t.id == args.id) = some task := by
        simpa [getTaskById] using heq
      have htmem : task ∈ db.tasks := List.mem_of_find?_eq_some heqf
      have hid2 : task.id = args.id := by
        have h1 := List.find?_some heqf
        simpa using h1
      unfold updateTask tasksConsistent
      dsimp only
      rw [List.all_eq_true]
      intro x hx
      rw [List.mem_map] at hx
      obtain ⟨t, htmem2, hxeq⟩ := hx
      subst hxeq
      by_cases hteq : t.id = args.id
      · have hte : t = task :=
          List.inj_on_of_nodup_map hids htmem2 htmem (hteq.trans hid2.symm)
        subst hte
        simp only [hteq, beq_self_eq_true, if_true]
        exact completedAtConsistent_applyPatch env.now args t
          (tasksConsistent_mem db t hdb htmem2)
      · have hbf : (t.id == args.id) = false := by simpa using hteq
        simp only [hbf, Bool.false_eq_true, if_false]
        exact tasksConsistent_mem db t hdb htmem2

theorem tasksConsistent_create (env : Env) (db : DB)
    (args : TaskEndpoint.CreateArgs)
    (hdb : tasksConsistent db = true) :
    tasksConsistent (TaskEndpoint.create env db args).db = true := by
  unfold TaskEndpoint.create
  cases env.auth with
  | none => exact hdb
  | some uid =>
    dsimp only
    split
    · exact hdb
    split
    · exact hdb
    split
    · exact hdb
    split
    · exact hdb
    split
    · exact hdb
    unfold createTask tasksConsistent
    dsimp only
    rw [List.all_append]
    rw [Bool.and_eq_true]
    refine And.intro hdb ?_
    simp [completedAtConsistent]

theorem tasksConsistent_complete (env : Env) (db : DB) (id : Nat)
    (hdb : tasksConsistent db = true) :
    tasksConsistent (TaskEndpoint.complete env db id).db = true := by
  unfold TaskEndpoint.complete
  cases env.auth with
  | none => exact hdb
  | some uid =>
    dsimp only
    split
    · exact hdb
    split
    · exact hdb
    split
    · exact hdb
    unfold markTaskCompleted tasksConsistent
    dsimp only
    rw [List.all_eq_true]
    intro x hx
    rw [List.mem_map] at hx
    obtain ⟨t, htmem, hxeq⟩ := hx
    subst hxeq
    by_cases hteq : (t.id == id) = true
    · simp only [hteq, if_true]
      by_cases htc : t.status = TaskStatus.completed
      · have := tasksConsistent_mem db t hdb htmem
        simp_all [completedAtConsistent]
      · simp_all [completedAtConsistent]
    · simp only [hteq, if_false]
      exact tasksConsistent_mem db t hdb htmem

/-- C2: after every task create, update and complete operation, completedAt
is set iff the task's status is completed (given stores with distinct
document ids in which the invariant already holds).  The update decides the
completedAt change from the status read from the store just before the
update — `UpdateArgs` carries no previous-status field a caller could
supply, only the requested target status. -/
theorem C2_completedAt_iff_completed
    (env : Env) (db : DB) (cargs : TaskEndpoint.CreateArgs)
    (uargs : TaskEndpoint.UpdateArgs) (cid : Nat)
    (hids : (db.tasks.map Task.id).Nodup)
    (hdb : tasksConsistent db = true) :
    tasksConsistent (TaskEndpoint.create env db cargs).db = true ∧
    tasksConsistent (TaskEndpoint.update env db uargs).db = true ∧
    tasksConsistent (TaskEndpoint.complete env db cid).db = true :=
  ⟨tasksConsistent_create env db cargs hdb,
   tasksConsistent_update env db uargs hids hdb,
   tasksConsistent_complete env db cid hdb⟩

/-- C2, witnessed at a concrete store: reopening alice's completed task
keeps the invariant. -/
theorem C2_completedAt_iff_completed_witness :
    tasksConsistent (TaskEndpoint.create envAlice dbAlice { title := "New" }).db
      = true ∧
    tasksConsistent (TaskEndpoint.update envAlice dbAlice
        { id := 0, status := some .pending }).db = true ∧
    tasksConsistent (TaskEndpoint.complete envAlice dbAlice 0).db = true :=
  C2_completedAt_iff_completed envAlice dbAlice { title := "New" }
    { id := 0, status := some .pending } 0 (by decide) (by decide)

/-! ## C3: non-owners receive Forbidden, not NotFound, never silent
success -/

/-- C3: for get, update, delete and complete on an existing task, and for
getThread, updateThread and deleteThread on an existing thread, an
authenticated caller who is not the owner receives the Forbidden error
(never NotFound, never success), and the store is unchanged by the
mutations.  The rate-limiter hypothesis covers the buckets the task
mutations consume before the ownership check. -/
theorem C3_non_owner_forbidden
    (env : Env) (db : DB) (uid : String) (tid thid : Nat)
    (task : Task) (thread : Thread)
    (uargs : TaskEndpoint.UpdateArgs) (targs : Assistant.UpdateThreadArgs)
    (hauth : env.auth = some uid)
    (hrl : ∀ bucket, (env.rl bucket uid).ok = true)
    (htask : getTaskById db tid = some task)
    (hto : task.userId ≠ uid)
    (hthread : getThreadById db thid = some thread)
    (hho : thread.userId ≠ uid)
    (hukey : uargs.id = tid)
    (htkey : targs.threadId = thid) :
    (TaskEndpoint.get env db tid).res
      = .error (.forbidden "Not authorized to view this task") ∧
    (TaskEndpoint.update env db uargs).res
      = .error (.forbidden "Not authorized to update this task") ∧
    (TaskEndpoint.complete env db tid).res
      = .error (.forbidden "Not authorized to update this task") ∧
    (TaskEndpoint.remove env db tid).res
      = .error (.forbidden "Not authorized to delete this task") ∧
    (Assistant.getThread env db thid).res
      = .error (.forbidden "Not authorized to view this thread") ∧
    (Assistant.updateThread env db targs).res
      = .error (.forbidden "Not authorized to update this thread") ∧
    (Assistant.deleteThread env db thid).res
      = .error (.forbidden "Not authorized to delete this thread") ∧
    (TaskEndpoint.update env db uargs).db = db ∧
    (TaskEndpoint.complete env db tid).db = db ∧
    (TaskEndpoint.remove env db tid).db = db ∧
    (Assistant.updateThread env db targs).db = db ∧
    (Assistant.deleteThread env db thid).db = db := by
  subst hukey htkey
  have hbne : (task.userId != uid) = true := by simpa using hto
  have hbne2 : (thread.userId != uid) = true := by simpa using hho
  refine ⟨?_, ?_, ?_, ?_, ?_, ?_, ?_, ?_, ?_, ?_, ?_, ?_⟩ <;>
    simp [TaskEndpoint.get, TaskEndpoint.update, TaskEndpoint.complete,
      TaskEndpoint.remove, Assistant.getThread, Assistant.updateThread,
      Assistant.deleteThread, hauth, hrl, htask, hthread, hbne, hbne2]

/-- C3, witnessed: carol (authenticated, limiter available) gets Forbidden
on alice's task and bob's thread. -/
theorem C3_non_owner_forbidden_witness :
    (TaskEndpoint.get envCarol dbMixed 0).res
      = .error (.forbidden "Not authorized to view this task") ∧
    (Assistant.getThread envCarol dbMixed 7).res
      = .error (.forbidden "Not authorized to view this thread") := by
  have h := C3_non_owner_forbidden envCarol dbMixed "carol" 0 7
    taskAlice threadBob { id := 0 } { threadId := 7 }
    rfl (fun _ => rfl) (by decide) (by decide) (by decide) (by decide)
    rfl rfl
  exact ⟨h.1, h.2.2.2.2.1⟩

/-! ## C4: deleteThread cascades, messages first, then the thread -/

/-- C4: a successful deleteThread by the owner first deletes every message
of the thread — in the intermediate store (after the message cascade,
before the thread delete) zero messages with that threadId remain while
the thread is still present — and then deletes the thread itself; the
final store has the thread absent and still zero messages for it. -/
theorem C4_deleteThread_cascade
    (env : Env) (db : DB) (uid : String) (thid : Nat) (thread : Thread)
    (hauth : env.auth = some uid)
    (hthread : getThreadById db thid = some thread)
    (hown : thread.userId = uid) :
    countMessagesInThread (deleteMessagesByThread db thid).1 thid = 0 ∧
    getThreadById (deleteMessagesByThread db thid).1 thid = some thread ∧
    (Assistant.deleteThread env db thid).res = .ok () ∧
    (Assistant.deleteThread env db thid).db
      = deleteThreadDb (deleteMessagesByThread db thid).1 thid ∧
    countMessagesInThread (Assistant.deleteThread env db thid).db thid = 0 ∧
    getThreadById (Assistant.deleteThread env db thid).db thid = none := by
  have hbeq : (thread.userId != uid) = false := by simp [hown]
  have hrun : Assistant.deleteThread env db thid =
      ⟨.ok (), deleteThreadDb (deleteMessagesByThread db thid).1 thid, []⟩ := by
    unfold Assistant.deleteThread
    rw [hauth]
    dsimp only
    rw [hthread]
    simp [hbeq]
  have hcount : countMessagesInThread (deleteMessagesByThread db thid).1 thid
      = 0 := by
    simp only [countMessagesInThread, getMessagesByThread,
      deleteMessagesByThread]
    rw [List.filter_filter]
    simp
  have hmid : getThreadById (deleteMessagesByThread db thid).1 thid
      = some thread := hthread
  have hgone : getThreadById
      (deleteThreadDb (deleteMessagesByThread db thid).1 thid) thid
      = none := by
    simp only [getThreadById, deleteThreadDb]
    rw [List.find?_eq_none]
    intro th hthm
    have hmem := List.of_mem_filter hthm
    simp at hmem
    simp [hmem]
  refine ⟨hcount, hmid, ?_, ?_, ?_, ?_⟩
  · rw [hrun]
  · rw [hrun]
  · rw [hrun]
    exact hcount
  · rw [hrun]
    exact hgone

/-- C4, witnessed: bob deletes his thread holding one message. -/
theorem C4_deleteThread_cascade_witness :
    countMessagesInThread (deleteMessagesByThread dbBob 7).1 7 = 0 ∧
    getThreadById (deleteMessagesByThread dbBob 7).1 7 = some threadBob ∧
    (Assistant.deleteThread envBob dbBob 7).res = .ok () ∧
    getThreadById (Assistant.deleteThread envBob dbBob 7).db 7 = none := by
  have h := C4_deleteThread_cascade envBob dbBob "bob" 7 threadBob
    rfl (by decide) (by decide)
  exact ⟨h.1, h.2.1, h.2.2.1, h.2.2.2.2.2⟩

/-! ## C5: sendMessage on a full thread fails before persisting or calling
the agent -/

/-- C5: when the thread already holds at least the per-thread maximum
(1000) of messages — with the earlier steps passing: authenticated owner,
limiter available, valid content — sendMessage fails with the
QuotaExceeded error, the store is unchanged (the user's message was not
persisted), and the external AI agent was never invoked. -/
theorem C5_sendMessage_quota
    (env : Env) (db : DB) (uid : String) (thid : Nat) (thread : Thread)
    (content : String)
    (hauth : env.auth = some uid)
    (hrl : (env.rl "sendMessage" uid).ok = true)
    (hvalid : isValidMessageContent (sanitizeInput content) = true)
    (hthread : getThreadById db thid = some thread)
    (hown : thread.userId = uid)
    (hfull : countMessagesInThread db thid ≥ MAX_MESSAGES_PER_THREAD) :
    (Assistant.sendMessage env db thid content).res
      = .error (.quotaExceeded "Maximum 1000 messages per thread reached") ∧
    (Assistant.sendMessage env db thid content).db = db ∧
    (Assistant.sendMessage env db thid content).agentCalls = 0 := by
  have hbeq : (thread.userId != uid) = false := by simp [hown]
  have hmsg : "Maximum " ++ toString MAX_MESSAGES_PER_THREAD
      ++ " messages per thread reached"
      = "Maximum 1000 messages per thread reached" := rfl
  refine ⟨?_, ?_, ?_⟩ <;>
    simp [Assistant.sendMessage, hauth, hrl, hvalid, hthread, hbeq, hfull,
      hmsg]

set_option maxRecDepth 40000 in
/-- C5, witnessed: alice's thread with exactly 1000 stored messages
rejects a further message without touching the store or the agent. -/
theorem C5_sendMessage_quota_witness :
    (Assistant.sendMessage envAlice dbFullThread 3 "Hello").res
      = .error (.quotaExceeded "Maximum 1000 messages per thread reached") ∧
    (Assistant.sendMessage envAlice dbFullThread 3 "Hello").db
      = dbFullThread ∧
    (Assistant.sendMessage envAlice dbFullThread 3 "Hello").agentCalls
      = 0 :=
  C5_sendMessage_quota envAlice dbFullThread "alice" 3 fullThread "Hello"
    rfl rfl (by decide) (by decide) (by decide) (by decide)

/-! ## C6: thread update and delete perform no rate limiting -/

/-- C6, counterexample to the claim as stated: with every rate-limit
bucket exhausted (the limiter denies every call with a 60 s retry-after),
the owner's updateThread and deleteThread nevertheless succeed — they make
no rate-limiter call at all (`rlCalls = []`) and never fail with
RateLimited, contradicting the claimed (a)-(d) mutating-operation
contract. -/
theorem C6_thread_mutations_ignore_exhausted_limiter :
    (rlDenied "createThread" "bob").ok = false ∧
    (Assistant.updateThread envBobDenied dbBob
        { threadId := 7, status := some .archived }).res
      = .ok (some threadBobArchived) ∧
    (Assistant.updateThread envBobDenied dbBob
        { threadId := 7, status := some .archived }).rlCalls = [] ∧
    (Assistant.deleteThread envBobDenied dbBob 7).res = .ok () ∧
    (Assistant.deleteThread envBobDenied dbBob 7).rlCalls = [] := by
  exact ⟨rfl, by rfl, rfl, rfl, rfl⟩

/-- C6, amended: updateThread and deleteThread perform no rate limiting at
all — on every input they make zero rate-limiter calls and never return
the RateLimited error (no `updateThread`/`deleteThread` bucket exists in
the limiter configuration; among thread and message operations only
createThread and sendMessage consume a bucket). -/
theorem C6_thread_update_delete_not_rate_limited
    (env : Env) (db : DB) (args : Assistant.UpdateThreadArgs) (thid : Nat) :
    (Assistant.updateThread env db args).rlCalls = [] ∧
    isRateLimitedErr (Assistant.updateThread env db args).res = false ∧
    (Assistant.deleteThread env db thid).rlCalls = [] ∧
    isRateLimitedErr (Assistant.deleteThread env db thid).res = false := by
  refine ⟨?_, ?_, ?_, ?_⟩ <;>
  · first
      | unfold Assistant.updateThread
      | unfold Assistant.deleteThread
    cases env.auth with
    | none => rfl
    | some uid =>
      dsimp only
      repeat' split
      all_goals rfl

/-! ## C7: in task update, ownership is checked before field validation -/

/-- C7, counterexample to the claim as stated: an update by authenticated
non-owner bob (limiter available) on alice's task that supplies an invalid
(empty) title fails with the Forbidden error, not InvalidInput — the
handler loads the target and checks ownership before validating the
supplied fields. -/
theorem C7_invalid_field_on_foreign_task_is_forbidden :
    isValidTaskTitle (sanitizeInput "") = false ∧
    (TaskEndpoint.update envBob dbAlice { id := 0, title := some "" }).res
      = .error (.forbidden "Not authorized to update this task") := by
  exact ⟨by decide, by rfl⟩

/-- C7, amended: in the task-update handler the order is authentication,
rate limiting, load + ownership check, then field validation; an update
that both supplies an invalid title and targets another user's task fails
with Forbidden, and InvalidInput is only reached once the caller owns the
target. -/
theorem C7_ownership_precedes_validation
    (env : Env) (db : DB) (uid : String) (args : TaskEndpoint.UpdateArgs)
    (task : Task)
    (hauth : env.auth = some uid)
    (hrl : (env.rl "updateTask" uid).ok = true)
    (hfound : getTaskById db args.id = some task) :
    (task.userId ≠ uid →
      (TaskEndpoint.update env db args).res
        = .error (.forbidden "Not authorized to update this task")) ∧
    (task.userId = uid →
      ∀ s, args.title = some s → isValidTaskTitle (sanitizeInput s) = false →
      (TaskEndpoint.update env db args).res
        = .error
          (.invalidInput "Task title must be between 1 and 200 characters")) := by
  constructor
  · intro hne
    have hbne : (task.userId != uid) = true := by simpa using hne
    simp [TaskEndpoint.update, hauth, hrl, hfound, hbne]
  · intro heq s hts hinv
    have hbne : (task.userId != uid) = false := by simp [heq]
    simp [TaskEndpoint.update, hauth, hrl, hfound, hbne, hts, hinv]

/-- C7, witnessed: the same invalid empty title gives Forbidden to
non-owner bob and InvalidInput to owner alice. -/
theorem C7_ownership_precedes_validation_witness :
    (TaskEndpoint.update envBob dbAlice { id := 0, title := some "" }).res
      = .error (.forbidden "Not authorized to update this task") ∧
    (TaskEndpoint.update envAlice dbAlice { id := 0, title := some "" }).res
      = .error
        (.invalidInput "Task title must be between 1 and 200 characters") :=
  ⟨(C7_ownership_precedes_validation envBob dbAlice "bob"
      { id := 0, title := some "" } taskAlice rfl rfl (by decide)).1
      (by decide),
   (C7_ownership_precedes_validation envAlice dbAlice "alice"
      { id := 0, title := some "" } taskAlice rfl rfl (by decide)).2
      rfl "" rfl (by decide)⟩

/-! ## C8: title length validation applies to the sanitized title -/

set_option maxRecDepth 8000 in
/-- C8, counterexample to the claim as stated: a supplied title of raw
length 201 — two hundred letters followed by one space — is accepted by
create (other preconditions met), because validation runs on the sanitized
title, whose length is 200 after the trailing space is trimmed. -/
theorem C8_raw_length_201_title_succeeds :
    title201.length = 201 ∧
    (sanitizeInput title201).length = 200 ∧
    (TaskEndpoint.create envAlice dbEmpty { title := title201 }).res
      = .ok 0 := by
  exact ⟨by decide, by decide, by rfl⟩

/-- C8, amended: for task create and update, title validation applies to
the sanitized title (trimmed, whitespace runs collapsed): a title whose
sanitized form has length 0 or above 200 fails with InvalidInput, and one
whose sanitized form has length 1..200 passes (the operation succeeds,
other preconditions being met).  Raw lengths 0 and 201 fail and succeed
respectively exactly when their sanitized lengths do. -/
theorem C8_title_validation_on_sanitized
    (env : Env) (db : DB) (uid : String) (t s : String) (i : Nat)
    (task : Task)
    (hauth : env.auth = some uid)
    (hrl : ∀ bucket, (env.rl bucket uid).ok = true)
    (hquota : (getTasksByUser db uid).length < MAX_TASKS_PER_USER)
    (hfound : getTaskById db i = some task)
    (hown : task.userId = uid) :
    ((sanitizeInput t).length = 0 ∨ 200 < (sanitizeInput t).length →
      (TaskEndpoint.create env db { title := t }).res
        = .error
          (.invalidInput "Task title must be between 1 and 200 characters")) ∧
    (1 ≤ (sanitizeInput t).length → (sanitizeInput t).length ≤ 200 →
      (TaskEndpoint.create env db { title := t }).res = .ok db.nextId) ∧
    ((sanitizeInput s).length = 0 ∨ 200 < (sanitizeInput s).length →
      (TaskEndpoint.update env db { id := i, title := some s }).res
        = .error
          (.invalidInput "Task title must be between 1 and 200 characters")) ∧
    (1 ≤ (sanitizeInput s).length → (sanitizeInput s).length ≤ 200 →
      ∃ r, (TaskEndpoint.update env db { id := i, title := some s }).res
        = .ok r) := by
  have hinvOf : ∀ u : String,
      (sanitizeInput u).length = 0 ∨ 200 < (sanitizeInput u).length →
      isValidTaskTitle (sanitizeInput u) = false := by
    intro u hu
    unfold isValidTaskTitle
    rcases hu with h0 | hgt
    · rw [h0]
      rfl
    · have hn : ¬(sanitizeInput u).length ≤ 200 := by omega
      simp [hn]
  have hvalOf : ∀ u : String,
      1 ≤ (sanitizeInput u).length → (sanitizeInput u).length ≤ 200 →
      isValidTaskTitle (sanitizeInput u) = true := by
    intro u h1 h2
    simp only [isValidTaskTitle, Bool.and_eq_true, decide_eq_true_eq]
    omega
  have hnq : ¬(getTasksByUser db uid).length ≥ MAX_TASKS_PER_USER := by
    omega
  have hbne : (task.userId != uid) = false := by simp [hown]
  refine ⟨?_, ?_, ?_, ?_⟩
  · intro hu
    simp [TaskEndpoint.create, hauth, hrl, hinvOf t hu]
  · intro h1 h2
    simp [TaskEndpoint.create, createTask, hauth, hrl, hvalOf t h1 h2, hnq]
  · intro hu
    simp [TaskEndpoint.update, hauth, hrl, hfound, hbne, hinvOf s hu]
  · intro h1 h2
    refine ⟨(updateTask db env.now i (TaskEndpoint.updatePatch env.now
      { id := i, title := some s } task)).2, ?_⟩
    simp [TaskEndpoint.update, hauth, hrl, hfound, hbne, hvalOf s h1 h2]

/-- C8, witnessed: a title sanitizing to ten characters is accepted in
both create and update by the owner. -/
theorem C8_title_validation_on_sanitized_witness :
    (TaskEndpoint.create envAlice dbAlice
        { title := "  Write   plan  " }).res = .ok 1 ∧
    ∃ r, (TaskEndpoint.update envAlice dbAlice
        { id := 0, title := some "Plan" }).res = .ok r := by
  have h := C8_title_validation_on_sanitized envAlice dbAlice "alice"
    "  Write   plan  " "Plan" 0 taskAlice rfl (fun _ => rfl) (by decide)
    (by decide) (by decide)
  exact ⟨h.2.1 (by decide) (by decide), h.2.2.2 (by decide) (by decide)⟩

/-! ## C9: a created task starts pending with no completedAt -/

/-- C9: after any create call — whatever fields the caller supplies
(`CreateArgs` has no status and no completedAt field) — every task in the
resulting store is either a pre-existing one or has status pending with no
completedAt; and the completedAt-iff-completed invariant still holds
immediately after creation. -/
theorem C9_created_task_pending_no_completedAt
    (env : Env) (db : DB) (args : TaskEndpoint.CreateArgs)
    (hdb : tasksConsistent db = true) :
    (∀ t ∈ (TaskEndpoint.create env db args).db.tasks,
        t ∈ db.tasks ∨ (t.status = .pending ∧ t.completedAt = none)) ∧
    tasksConsistent (TaskEndpoint.create env db args).db = true := by
  refine ⟨?_, tasksConsistent_create env db args hdb⟩
  unfold TaskEndpoint.create
  cases env.auth with
  | none =>
    intro t ht
    exact Or.inl ht
  | some uid =>
    dsimp only
    repeat' split
    all_goals intro t ht
    all_goals
      first
        | exact Or.inl ht
        | (simp only [createTask] at ht
           rw [List.mem_append] at ht
           rcases ht with h | h
           · exact Or.inl h
           · right
             simp at h
             subst h
             exact ⟨rfl, rfl⟩)

/-- C9, witnessed on alice's store. -/
theorem C9_created_task_pending_no_completedAt_witness :
    (∀ t ∈ (TaskEndpoint.create envAlice dbAlice
          { title := "New", priority := some .high }).db.tasks,
        t ∈ dbAlice.tasks ∨ (t.status = .pending ∧ t.completedAt = none)) ∧
    tasksConsistent (TaskEndpoint.create envAlice dbAlice
        { title := "New", priority := some .high }).db = true :=
  C9_created_task_pending_no_completedAt envAlice dbAlice
    { title := "New", priority := some .high } (by decide)

/-! ## C10: due dates are restricted to a window around the current
time -/

/-- C10: a supplied non-zero dueDate is rejected with InvalidInput exactly
when it lies outside the window from 24 hours before the current time to
five 365-day years after it, in both create and update (other
preconditions being met); the window is precisely the one
`isValidDueDate` computes. -/
theorem C10_due_date_range
    (env : Env) (db : DB) (uid : String) (d : Int) (i : Nat) (task : Task)
    (hauth : env.auth = some uid)
    (hrl : ∀ bucket, (env.rl bucket uid).ok = true)
    (hquota : (getTasksByUser db uid).length < MAX_TASKS_PER_USER)
    (hfound : getTaskById db i = some task)
    (hown : task.userId = uid)
    (hdz : d ≠ 0) :
    (∀ n x : Int, isValidDueDate n x = true ↔
      (n - 24 * 60 * 60 * 1000 ≤ x ∧
        x ≤ n + 5 * 365 * 24 * 60 * 60 * 1000)) ∧
    (isValidDueDate env.now d = false →
      (TaskEndpoint.create env db { title := "Task", dueDate := some d }).res
        = .error (.invalidInput "Invalid due date") ∧
      (TaskEndpoint.update env db { id := i, dueDate := some d }).res
        = .error (.invalidInput "Invalid due date")) ∧
    (isValidDueDate env.now d = true →
      (TaskEndpoint.create env db { title := "Task", dueDate := some d }).res
        = .ok db.nextId ∧
      ∃ r, (TaskEndpoint.update env db { id := i, dueDate := some d }).res
        = .ok r) := by
  have hvt : isValidTaskTitle (sanitizeInput "Task") = true := by decide
  have hbd : (d != 0) = true := by simpa using hdz
  have hbne : (task.userId != uid) = false := by simp [hown]
  have hnq : ¬(getTasksByUser db uid).length ≥ MAX_TASKS_PER_USER := by
    omega
  refine ⟨?_, ?_, ?_⟩
  · intro n x
    simp [isValidDueDate, Bool.and_eq_true, decide_eq_true_eq, ge_iff_le]
  · intro hbad
    constructor
    · simp [TaskEndpoint.create, hauth, hrl, hvt, hbd, hbad]
    · simp [TaskEndpoint.update, hauth, hrl, hfound, hbne, hbad]
  · intro hgood
    constructor
    · simp [TaskEndpoint.create, createTask, hauth, hrl, hvt, hbd, hgood,
        hnq]
    · refine ⟨(updateTask db env.now i (TaskEndpoint.updatePatch env.now
        { id := i, dueDate := some d } task)).2, ?_⟩
      simp [TaskEndpoint.update, hauth, hrl, hfound, hbne, hgood]

/-- C10, witnessed: a due date one hour from now is accepted, one a year
in the past is rejected, in alice's store. -/
theorem C10_due_date_range_witness :
    (TaskEndpoint.create envAlice dbAlice
        { title := "Task", dueDate := some (NOW + 3600000) }).res
      = .ok 1 ∧
    (TaskEndpoint.update envAlice dbAlice
        { id := 0, dueDate := some (NOW - 31536000000) }).res
      = .error (.invalidInput "Invalid due date") := by
  have hgood := (C10_due_date_range envAlice dbAlice "alice"
    (NOW + 3600000) 0 taskAlice rfl (fun _ => rfl) (by decide) (by decide)
    (by decide) (by decide)).2.2 (by decide)
  have hbad := (C10_due_date_range envAlice dbAlice "alice"
    (NOW - 31536000000) 0 taskAlice rfl (fun _ => rfl) (by decide)
    (by decide) (by decide) (by decide)).2.1 (by decide)
  exact ⟨hgood.1, hbad.2⟩

end TodoApp
